import Mathlib

/-!
Verification development for the `pyhf.utils` module: schema loading and
caching (`load_schema`, `SCHEMA_CACHE`), schema validation (`validate` with
the tensor-aware array type checker `_is_array_or_tensor`), content digests
(`digest`), and `key=value` option parsing (`options_from_eqdelimstring`).

The Python runtime values handled by the module are embedded as `PyObj`;
JSON-schema documents as `Schema`; the process-wide schema cache as an
association list threaded explicitly through each call.  The recursive
constraint evaluation that the module delegates to the external `jsonschema`
library is modelled from the spec (recursive keyword walk aggregating
violations), with the array-type check delegated to the pluggable checker
exactly as the source wires it.
-/

/-- Embedding of the Python runtime values that appear as validation
instances: JSON-style data (None, bool, int, str, list, dict) plus
tensor values of some registered backend type (identified by the backend
type name, as `tensor.array_types` holds the loaded backend array types). -/
inductive PyObj where
  | null : PyObj
  | bool : Bool → PyObj
  | num : Int → PyObj
  | str : String → PyObj
  | arr : List PyObj → PyObj
  | obj : List (String × PyObj) → PyObj
  | tensor : String → List PyObj → PyObj

/-- The JSON-schema primitive type names used by the `type` keyword. -/
inductive JType where
  | array : JType
  | object : JType
  | string : JType
  | number : JType
  | integer : JType
  | boolean : JType
  | nullType : JType
deriving DecidableEq

/-- A single schema-constraint violation: the keyword that failed and the
instance path at which it failed (as `jsonschema.ValidationError` carries). -/
structure Violation where
  keyword : String
  path : List String
deriving DecidableEq

/-- Embedding of the JSON-schema documents the module validates against:
the Draft-6 structural keywords described by the spec (type, properties,
required, items, allOf, anyOf, not; an empty schema imposes no constraint). -/
inductive Schema where
  | anyS : Schema
  | typeIs : JType → Schema
  | props : List (String × Schema) → Schema
  | required : List String → Schema
  | items : Schema → Schema
  | allOf : List Schema → Schema
  | anyOf : List Schema → Schema
  | notS : Schema → Schema

/-- Python dict lookup on an association list (first binding wins, as the
embedding of `dict` access). -/
def alookup {β : Type} (k : String) : List (String × β) → Option β
  | [] => none
  | (k', v) :: rest => if k = k' then some v else alookup k rest

theorem sizeOf_alookup_lt {β : Type} [SizeOf β] {k : String} {v : β} :
    ∀ {fs : List (String × β)}, alookup k fs = some v → sizeOf v < sizeOf fs := by
  intro fs h
  induction fs with
  | nil => simp [alookup] at h
  | cons p rest ih =>
    cases p with
    | mk k' v' =>
      rw [alookup] at h
      split at h
      · cases h
        simp only [List.cons.sizeOf_spec, Prod.mk.sizeOf_spec]
        omega
      · have := ih h
        simp only [List.cons.sizeOf_spec, Prod.mk.sizeOf_spec]
        omega

/-- Membership test of a key in a Python dict (`prop in instance`). -/
def hasKey (fs : List (String × PyObj)) (k : String) : Bool :=
  (alookup k fs).isSome

/-- Translation of `pyhf.utils._is_array_or_tensor`: the redefined `array`
type check `isinstance(instance, (list, *tensor.array_types))` — true for a
Python list, and for a tensor value whose backend type has been registered
in `tensor.array_types`. -/
def is_array_or_tensor (array_types : List String) (instance_ : PyObj) : Bool :=
  match instance_ with
  | .arr _ => true
  | .tensor t _ => array_types.contains t
  | _ => false

/-- The `jsonschema.Draft6Validator` default `array` type check:
`isinstance(instance, list)`. -/
def is_list_default (instance_ : PyObj) : Bool :=
  match instance_ with
  | .arr _ => true
  | _ => false

/-- The Draft-6 `type` keyword check, with the `array` case delegated to the
active array checker (the source redefines only `array` in the type checker). -/
def checkType (arrayChk : PyObj → Bool) (t : JType) (v : PyObj) : Bool :=
  match t with
  | .array => arrayChk v
  | .object => match v with | .obj _ => true | _ => false
  | .string => match v with | .str _ => true | _ => false
  | .number => match v with | .num _ => true | _ => false
  | .integer => match v with | .num _ => true | _ => false
  | .boolean => match v with | .bool _ => true | _ => false
  | .nullType => match v with | .null => true | _ => false

/-- Violations of the `required` keyword: one per listed property missing
from the instance object. -/
def reqViols (ks : List String) (fs : List (String × PyObj)) : List Violation :=
  ks.filterMap (fun k => if hasKey fs k then none else some (Violation.mk "required" []))

mutual

/-- Modelled from the spec: the recursive schema-keyword walk that the
source delegates to `jsonschema.Draft6Validator` — evaluates each structural
keyword against the instance, aggregating all violations found, with the
`array` type check delegated to the supplied checker. -/
def evalSchema (chk : PyObj → Bool) (s : Schema) (v : PyObj) : List Violation :=
  match s with
  | .anyS => []
  | .typeIs t => if checkType chk t v then [] else [Violation.mk "type" []]
  | .props ps =>
    match v with
    | .obj fs => evalProps chk ps fs
    | _ => []
  | .required ks =>
    match v with
    | .obj fs => reqViols ks fs
    | _ => []
  | .items s' =>
    match v with
    | .arr xs => if chk (.arr xs) then evalItems chk s' xs 0 else []
    | .tensor t xs => if chk (.tensor t xs) then evalItems chk s' xs 0 else []
    | _ => []
  | .allOf ss => evalAll chk ss v
  | .anyOf ss => if anyHolds chk ss v then [] else [Violation.mk "anyOf" []]
  | .notS s' => if (evalSchema chk s' v).isEmpty then [Violation.mk "not" []] else []
termination_by sizeOf s + sizeOf v

/-- Property sub-schema evaluation: each listed property present in the
instance object is checked against its sub-schema, violations prefixed with
the property name. -/
def evalProps (chk : PyObj → Bool) (ps : List (String × Schema)) (fs : List (String × PyObj)) : List Violation :=
  match ps with
  | [] => []
  | (k, s) :: rest =>
    (match hv : alookup k fs with
     | some v => (evalSchema chk s v).map (fun e => Violation.mk e.keyword (k :: e.path))
     | none => []) ++ evalProps chk rest fs
termination_by sizeOf ps + sizeOf fs
decreasing_by
  all_goals simp_wf
  all_goals try (have hlt := sizeOf_alookup_lt hv)
  all_goals omega

/-- Item sub-schema evaluation over the elements of a sequence, violations
prefixed with the element index. -/
def evalItems (chk : PyObj → Bool) (s : Schema) (xs : List PyObj) (i : Nat) : List Violation :=
  match xs with
  | [] => []
  | x :: rest =>
    (evalSchema chk s x).map (fun e => Violation.mk e.keyword (toString i :: e.path)) ++
      evalItems chk s rest (i + 1)
termination_by sizeOf s + sizeOf xs

/-- Keyword allOf: every branch is evaluated; violations aggregate. -/
def evalAll (chk : PyObj → Bool) (ss : List Schema) (v : PyObj) : List Violation :=
  match ss with
  | [] => []
  | s :: rest => evalSchema chk s v ++ evalAll chk rest v
termination_by sizeOf ss + sizeOf v

/-- Keyword anyOf: does some branch evaluate with no violation. -/
def anyHolds (chk : PyObj → Bool) (ss : List Schema) (v : PyObj) : Bool :=
  match ss with
  | [] => false
  | s :: rest => (evalSchema chk s v).isEmpty || anyHolds chk rest v
termination_by sizeOf ss + sizeOf v

end

mutual

/-- Independent Boolean semantics of schema satisfaction, written directly
from the Draft-6 keyword meanings stated in the spec; used to state that
`validate` succeeds exactly on satisfying instances. -/
def satSchema (chk : PyObj → Bool) (s : Schema) (v : PyObj) : Bool :=
  match s with
  | .anyS => true
  | .typeIs t => checkType chk t v
  | .props ps =>
    match v with
    | .obj fs => satProps chk ps fs
    | _ => true
  | .required ks =>
    match v with
    | .obj fs => ks.all (fun k => hasKey fs k)
    | _ => true
  | .items s' =>
    match v with
    | .arr xs => if chk (.arr xs) then satItems chk s' xs else true
    | .tensor t xs => if chk (.tensor t xs) then satItems chk s' xs else true
    | _ => true
  | .allOf ss => satAll chk ss v
  | .anyOf ss => satAny chk ss v
  | .notS s' => !(satSchema chk s' v)
termination_by sizeOf s + sizeOf v

/-- Satisfaction of each property sub-schema present in the object. -/
def satProps (chk : PyObj → Bool) (ps : List (String × Schema)) (fs : List (String × PyObj)) : Bool :=
  match ps with
  | [] => true
  | (k, s) :: rest =>
    (match hv : alookup k fs with
     | some v => satSchema chk s v
     | none => true) && satProps chk rest fs
termination_by sizeOf ps + sizeOf fs
decreasing_by
  all_goals simp_wf
  all_goals try (have hlt := sizeOf_alookup_lt hv)
  all_goals omega

/-- Satisfaction of the item sub-schema by every element. -/
def satItems (chk : PyObj → Bool) (s : Schema) (xs : List PyObj) : Bool :=
  match xs with
  | [] => true
  | x :: rest => satSchema chk s x && satItems chk s rest
termination_by sizeOf s + sizeOf xs

/-- Satisfaction of every `allOf` branch. -/
def satAll (chk : PyObj → Bool) (ss : List Schema) (v : PyObj) : Bool :=
  match ss with
  | [] => true
  | s :: rest => satSchema chk s v && satAll chk rest v
termination_by sizeOf ss + sizeOf v

/-- Satisfaction of some `anyOf` branch. -/
def satAny (chk : PyObj → Bool) (ss : List Schema) (v : PyObj) : Bool :=
  match ss with
  | [] => false
  | s :: rest => satSchema chk s v || satAny chk rest v
termination_by sizeOf ss + sizeOf v

end

theorem reqViols_nil_iff (ks : List String) (fs : List (String × PyObj)) :
    (reqViols ks fs = []) ↔ (ks.all (fun k => hasKey fs k) = true) := by
  simp only [reqViols, List.filterMap_eq_nil_iff, List.all_eq_true]
  constructor
  · intro h k hk
    have := h k hk
    by_cases hh : hasKey fs k
    · exact hh
    · simp [hh] at this
  · intro h k hk
    simp [h k hk]

theorem evalProps_cons_some (chk : PyObj → Bool) (k : String) (s : Schema)
    (rest : List (String × Schema)) (fs : List (String × PyObj)) (v : PyObj)
    (hv : alookup k fs = some v) :
    evalProps chk ((k, s) :: rest) fs
      = (evalSchema chk s v).map (fun e => Violation.mk e.keyword (k :: e.path))
          ++ evalProps chk rest fs := by
  simp only [evalProps]
  split
  case _ v' heq => rw [hv] at heq; cases heq; rfl
  case _ heq => rw [hv] at heq; cases heq

theorem evalProps_cons_none (chk : PyObj → Bool) (k : String) (s : Schema)
    (rest : List (String × Schema)) (fs : List (String × PyObj))
    (hv : alookup k fs = none) :
    evalProps chk ((k, s) :: rest) fs = evalProps chk rest fs := by
  simp only [evalProps]
  split
  case _ v' heq => rw [hv] at heq; cases heq
  case _ heq => simp

theorem satProps_cons_some (chk : PyObj → Bool) (k : String) (s : Schema)
    (rest : List (String × Schema)) (fs : List (String × PyObj)) (v : PyObj)
    (hv : alookup k fs = some v) :
    satProps chk ((k, s) :: rest) fs = (satSchema chk s v && satProps chk rest fs) := by
  simp only [satProps]
  split
  case _ v' heq => rw [hv] at heq; cases heq; rfl
  case _ heq => rw [hv] at heq; cases heq

theorem satProps_cons_none (chk : PyObj → Bool) (k : String) (s : Schema)
    (rest : List (String × Schema)) (fs : List (String × PyObj))
    (hv : alookup k fs = none) :
    satProps chk ((k, s) :: rest) fs = satProps chk rest fs := by
  simp only [satProps]
  split
  case _ v' heq => rw [hv] at heq; cases heq
  case _ heq => simp

mutual

theorem evalSchema_nil_iff (chk : PyObj → Bool) (s : Schema) (v : PyObj) :
    (evalSchema chk s v = []) ↔ (satSchema chk s v = true) := by
  cases s with
  | anyS => simp [evalSchema, satSchema]
  | typeIs t =>
    by_cases h : checkType chk t v = true
    · simp [evalSchema, satSchema, h]
    · simp [evalSchema, satSchema, h]
  | props ps =>
    cases v
    case obj fs => simpa [evalSchema, satSchema] using evalProps_nil_iff chk ps fs
    all_goals simp [evalSchema, satSchema]
  | required ks =>
    cases v
    case obj fs => simpa [evalSchema, satSchema] using reqViols_nil_iff ks fs
    all_goals simp [evalSchema, satSchema]
  | items s' =>
    cases v
    case arr xs =>
      by_cases h : chk (PyObj.arr xs) = true
      · simpa [evalSchema, satSchema, h] using evalItems_nil_iff chk s' xs 0
      · simp [evalSchema, satSchema, h]
    case tensor t xs =>
      by_cases h : chk (PyObj.tensor t xs) = true
      · simpa [evalSchema, satSchema, h] using evalItems_nil_iff chk s' xs 0
      · simp [evalSchema, satSchema, h]
    all_goals simp [evalSchema, satSchema]
  | allOf ss => simpa [evalSchema, satSchema] using evalAll_nil_iff chk ss v
  | anyOf ss =>
    have h := anyHolds_eq_satAny chk ss v
    by_cases hA : anyHolds chk ss v = true
    · simp [evalSchema, satSchema, hA, ← h]
    · simp [evalSchema, satSchema, hA, ← h]
  | notS s' =>
    have h := evalSchema_nil_iff chk s' v
    by_cases he : evalSchema chk s' v = []
    · simp [evalSchema, satSchema, he, h.mp he]
    · have hs : satSchema chk s' v = false := by
        cases hb : satSchema chk s' v
        · rfl
        · exact absurd (h.mpr hb) he
      have hne : (evalSchema chk s' v).isEmpty = false := by
        simpa [List.isEmpty_iff] using he
      simp [evalSchema, satSchema, hne, hs]
termination_by sizeOf s + sizeOf v

theorem evalProps_nil_iff (chk : PyObj → Bool) (ps : List (String × Schema))
    (fs : List (String × PyObj)) :
    (evalProps chk ps fs = []) ↔ (satProps chk ps fs = true) := by
  cases ps with
  | nil => simp [evalProps, satProps]
  | cons p rest =>
    obtain ⟨k, s⟩ := p
    cases hv : alookup k fs with
    | some v =>
      have h1 := evalSchema_nil_iff chk s v
      have h2 := evalProps_nil_iff chk rest fs
      rw [evalProps_cons_some chk k s rest fs v hv, satProps_cons_some chk k s rest fs v hv]
      simp [h1, h2]
    | none =>
      have h2 := evalProps_nil_iff chk rest fs
      rw [evalProps_cons_none chk k s rest fs hv, satProps_cons_none chk k s rest fs hv]
      exact h2
termination_by sizeOf ps + sizeOf fs
decreasing_by
  all_goals simp_wf
  all_goals try (have hlt := sizeOf_alookup_lt hv)
  all_goals omega

theorem evalItems_nil_iff (chk : PyObj → Bool) (s : Schema) (xs : List PyObj) (i : Nat) :
    (evalItems chk s xs i = []) ↔ (satItems chk s xs = true) := by
  cases xs with
  | nil => simp [evalItems, satItems]
  | cons x rest =>
    have h1 := evalSchema_nil_iff chk s x
    have h2 := evalItems_nil_iff chk s rest (i + 1)
    simp [evalItems, satItems, h1, h2]
termination_by sizeOf s + sizeOf xs

theorem evalAll_nil_iff (chk : PyObj → Bool) (ss : List Schema) (v : PyObj) :
    (evalAll chk ss v = []) ↔ (satAll chk ss v = true) := by
  cases ss with
  | nil => simp [evalAll, satAll]
  | cons s rest =>
    have h1 := evalSchema_nil_iff chk s v
    have h2 := evalAll_nil_iff chk rest v
    simp [evalAll, satAll, h1, h2]
termination_by sizeOf ss + sizeOf v

theorem anyHolds_eq_satAny (chk : PyObj → Bool) (ss : List Schema) (v : PyObj) :
    anyHolds chk ss v = satAny chk ss v := by
  cases ss with
  | nil => simp [anyHolds, satAny]
  | cons s rest =>
    have h1 := evalSchema_nil_iff chk s v
    have h2 := anyHolds_eq_satAny chk rest v
    have h3 : (evalSchema chk s v).isEmpty = satSchema chk s v := by
      cases hb : satSchema chk s v
      · have hne : ¬ evalSchema chk s v = [] := by
          intro hh
          rw [h1.mp hh] at hb
          cases hb
        simpa [List.isEmpty_iff] using hne
      · simp [List.isEmpty_iff, h1.mpr hb]
    rw [anyHolds, satAny, h2, h3]
termination_by sizeOf ss + sizeOf v

end

/-- A schema document as loaded from disk: its declared `$id` field and its
constraint body (the source caches documents under their declared id). -/
structure SchemaDoc where
  id : String
  schema : Schema

/-- Modelled from the spec: the versioned schema store shipped alongside the
system (the `schemas/<version>/<name>` resource files, absent from the
provided sources), keyed by (version, schema name); `pkg_resources` plus
`json.load` is a deterministic lookup in this fixed collection. -/
abbrev Store := List ((String × String) × SchemaDoc)

/-- The process-wide `SCHEMA_CACHE` dict mapping a canonical identifier to
its parsed document, threaded explicitly through each call. -/
abbrev Cache := List (String × SchemaDoc)

/-- Deterministic lookup of a (version, name) pair in the store. -/
def storeLookup (store : Store) (v : String) (n : String) : Option SchemaDoc :=
  match store with
  | [] => none
  | (k, d) :: rest => if (v, n) = k then some d else storeLookup rest v n

/-- Constant `SCHEMA_BASE` from the source. -/
def SCHEMA_BASE : String := "https://scikit-hep.org/pyhf/schemas/"

/-- Constant `SCHEMA_VERSION` from the source. -/
def SCHEMA_VERSION : String := "1.0.0"

/-- The `if not version: version = SCHEMA_VERSION` default (Python treats
the empty string as falsy like `None`). -/
def resolveVersion (version : Option String) : String :=
  match version with
  | none => SCHEMA_VERSION
  | some s => if s = "" then SCHEMA_VERSION else s

/-- The cache key the source probes first:
`SCHEMA_BASE + str(Path(version).joinpath(schema_id))`. -/
def schemaKey (version : String) (schema_id : String) : String :=
  SCHEMA_BASE ++ version ++ "/" ++ schema_id

/-- The `FileNotFoundError` raised when the (version, schema_id) resource is
absent, identifying the missing schema. -/
inductive LoadErr where
  | fileNotFound : String → String → LoadErr
deriving DecidableEq

/-- Translation of `pyhf.utils.load_schema`: resolve the version default,
probe `SCHEMA_CACHE` under the composed identifier, else load the document
from the store and insert it into the cache under its declared `$id`
(`SCHEMA_CACHE[schema['$id']] = schema`), returning the freshly cached
document. -/
def load_schema (store : Store) (cache : Cache) (schema_id : String)
    (version : Option String) : (Except LoadErr SchemaDoc) × Cache :=
  let v := resolveVersion version
  match alookup (schemaKey v schema_id) cache with
  | some doc => (Except.ok doc, cache)
  | none =>
    match storeLookup store v schema_id with
    | none => (Except.error (LoadErr.fileNotFound v schema_id), cache)
    | some doc => (Except.ok doc, (doc.id, doc) :: cache)

/-- The failures `validate` can surface: the propagated `FileNotFoundError`
of `load_schema`, or `InvalidSpecification` wrapping the aggregated
constraint violations together with the schema name. -/
inductive ValidateErr where
  | fileNotFound : String → String → ValidateErr
  | invalidSpecification : List Violation → String → ValidateErr

/-- The type checker `validate` installs: with `allow_tensors` the `array`
check is redefined to `_is_array_or_tensor`, otherwise the Draft-6 default
list check is kept. -/
def activeTypeChecker (array_types : List String) (allow_tensors : Bool) : PyObj → Bool :=
  if allow_tensors then is_array_or_tensor array_types else is_list_default

/-- Translation of `pyhf.utils.validate`: load the schema (propagating the
not-found failure), evaluate the instance against it with the selected type
checker, return nothing on success and wrap any violation into
`InvalidSpecification(err, schema_id)` on failure. -/
def validate (array_types : List String) (store : Store) (cache : Cache)
    (spec : PyObj) (schema_id : String) (version : Option String)
    (allow_tensors : Bool) : (Except ValidateErr Unit) × Cache :=
  match load_schema store cache schema_id version with
  | (Except.error (LoadErr.fileNotFound v n), c) =>
    (Except.error (ValidateErr.fileNotFound v n), c)
  | (Except.ok doc, c) =>
    match evalSchema (activeTypeChecker array_types allow_tensors) doc.schema spec with
    | [] => (Except.ok (), c)
    | e :: errs =>
      (Except.error (ValidateErr.invalidSpecification (e :: errs) schema_id), c)

/-- The cache `validate` leaves behind is exactly the cache `load_schema`
leaves behind: validation itself never writes to the cache. -/
theorem validate_cache_eq (array_types : List String) (store : Store) (cache : Cache)
    (spec : PyObj) (schema_id : String) (version : Option String) (allow_tensors : Bool) :
    (validate array_types store cache spec schema_id version allow_tensors).2
      = (load_schema store cache schema_id version).2 := by
  rw [validate]
  rcases h : load_schema store cache schema_id version with ⟨r, c⟩
  cases r with
  | error e => cases e with | fileNotFound v n => simp
  | ok doc => cases hE : evalSchema (activeTypeChecker array_types allow_tensors) doc.schema spec <;> simp [hE]

/-- A second `load_schema` call with the same arguments, run on the cache the
first call produced, returns the same result: on a cache hit nothing changed;
on a miss the first call cached the loaded document, and the second call
either hits that entry (when the declared id equals the composed key) or
misses again and reloads the identical document from the store. -/
theorem load_schema_stable (store : Store) (cache : Cache) (schema_id : String)
    (version : Option String) :
    (load_schema store (load_schema store cache schema_id version).2 schema_id version).1
      = (load_schema store cache schema_id version).1 := by
  rw [load_schema]
  cases h1 : alookup (schemaKey (resolveVersion version) schema_id) cache with
  | some doc => simp [load_schema, h1]
  | none =>
    cases h2 : storeLookup store (resolveVersion version) schema_id with
    | none => simp [load_schema, h1, h2]
    | some doc =>
      simp only [load_schema, h1, h2]
      by_cases hk : schemaKey (resolveVersion version) schema_id = doc.id
      · simp [alookup, hk]
      · simp [alookup, hk, h1, h2]

/-- Claim C1: an instance whose "array" field holds a value of a registered
tensor type validates (returns success) against a schema requiring type
`array` for that field when `allow_tensors` is true, and fails with a
type-mismatch violation wrapped in `InvalidSpecification` when
`allow_tensors` is false. -/
theorem validate_tensor_array_acceptance
    (array_types : List String) (store : Store) (cache : Cache) (c : Cache)
    (fs : List (String × PyObj)) (t : String) (xs : List PyObj)
    (schema_id : String) (version : Option String) (doc : SchemaDoc)
    (hreg : t ∈ array_types)
    (hfield : alookup "array" fs = some (PyObj.tensor t xs))
    (hload : load_schema store cache schema_id version = (Except.ok doc, c))
    (hschema : doc.schema = Schema.props [("array", Schema.typeIs JType.array)]) :
    (validate array_types store cache (PyObj.obj fs) schema_id version true).1 = Except.ok ()
    ∧ (validate array_types store cache (PyObj.obj fs) schema_id version false).1
        = Except.error (ValidateErr.invalidSpecification [Violation.mk "type" ["array"]] schema_id) := by
  have hc : array_types.contains t = true := by
    simpa using hreg
  have hT : evalSchema (activeTypeChecker array_types true) doc.schema (PyObj.obj fs) = [] := by
    rw [hschema, show activeTypeChecker array_types true = is_array_or_tensor array_types from rfl]
    simp only [evalSchema]
    rw [evalProps_cons_some (is_array_or_tensor array_types) "array"
      (Schema.typeIs JType.array) [] fs (PyObj.tensor t xs) hfield]
    simp [evalProps, evalSchema, checkType, is_array_or_tensor, hc, hreg]
  have hF : evalSchema (activeTypeChecker array_types false) doc.schema (PyObj.obj fs)
      = [Violation.mk "type" ["array"]] := by
    rw [hschema, show activeTypeChecker array_types false = is_list_default from rfl]
    simp only [evalSchema]
    rw [evalProps_cons_some is_list_default "array"
      (Schema.typeIs JType.array) [] fs (PyObj.tensor t xs) hfield]
    simp [evalProps, evalSchema, checkType, is_list_default]
  exact ⟨by simp [validate, hload, hT], by simp [validate, hload, hF]⟩

/-- Fixture for the C1 witness: a store holding one schema document that
requires the "array" property to have type `array`. -/
def w1Doc : SchemaDoc :=
  SchemaDoc.mk "https://scikit-hep.org/pyhf/schemas/1.0.0/model.json"
    (Schema.props [("array", Schema.typeIs JType.array)])

/-- Fixture store for the C1 witness. -/
def w1Store : Store := [(("1.0.0", "model.json"), w1Doc)]

/-- Fixture instance for the C1 witness: its "array" field holds a tensor of
the registered backend type "numpy". -/
def w1Spec : PyObj := PyObj.obj [("array", PyObj.tensor "numpy" [PyObj.num 1])]

/-- Witness for C1 at a concrete store, schema and instance. -/
theorem validate_tensor_array_acceptance_witness :
    ("numpy" ∈ ["numpy"])
    ∧ (alookup "array" [("array", PyObj.tensor "numpy" [PyObj.num 1])]
        = some (PyObj.tensor "numpy" [PyObj.num 1]))
    ∧ (load_schema w1Store [] "model.json" none = (Except.ok w1Doc, [(w1Doc.id, w1Doc)]))
    ∧ (w1Doc.schema = Schema.props [("array", Schema.typeIs JType.array)])
    ∧ ((validate ["numpy"] w1Store [] w1Spec "model.json" none true).1 = Except.ok ()
      ∧ (validate ["numpy"] w1Store [] w1Spec "model.json" none false).1
          = Except.error (ValidateErr.invalidSpecification
              [Violation.mk "type" ["array"]] "model.json")) :=
  ⟨by simp, rfl, rfl, rfl,
    validate_tensor_array_acceptance ["numpy"] w1Store [] [(w1Doc.id, w1Doc)]
      [("array", PyObj.tensor "numpy" [PyObj.num 1])] "numpy" [PyObj.num 1]
      "model.json" none w1Doc (by simp) rfl rfl rfl⟩

/-- Claim C2: when the named schema is registered, `validate` returns
success exactly when the instance satisfies all of the schema's constraints,
and every failure it raises is an `InvalidSpecification` carrying at least
one constraint violation together with the schema name. -/
theorem validate_ok_iff_satisfies
    (array_types : List String) (store : Store) (cache : Cache) (c : Cache)
    (spec : PyObj) (schema_id : String) (version : Option String)
    (allow_tensors : Bool) (doc : SchemaDoc)
    (hload : load_schema store cache schema_id version = (Except.ok doc, c)) :
    ((validate array_types store cache spec schema_id version allow_tensors).1 = Except.ok ()
      ↔ satSchema (activeTypeChecker array_types allow_tensors) doc.schema spec = true)
    ∧ (∀ e, (validate array_types store cache spec schema_id version allow_tensors).1
          = Except.error e →
        ∃ errs, errs ≠ [] ∧ e = ValidateErr.invalidSpecification errs schema_id) := by
  cases hE : evalSchema (activeTypeChecker array_types allow_tensors) doc.schema spec with
  | nil =>
    have hsat := (evalSchema_nil_iff (activeTypeChecker array_types allow_tensors)
      doc.schema spec).mp hE
    constructor
    · simp [validate, hload, hE, hsat]
    · intro e he
      simp [validate, hload, hE] at he
  | cons x rest =>
    have hsat : satSchema (activeTypeChecker array_types allow_tensors) doc.schema spec
        = false := by
      cases hb : satSchema (activeTypeChecker array_types allow_tensors) doc.schema spec
      · rfl
      · have h0 := (evalSchema_nil_iff (activeTypeChecker array_types allow_tensors)
          doc.schema spec).mpr hb
        rw [hE] at h0
        cases h0
    constructor
    · simp [validate, hload, hE, hsat]
    · intro e he
      simp [validate, hload, hE] at he
      exact ⟨x :: rest, by simp, by simp [he]⟩

/-- Fixture for the C2 witness: a registered schema requiring a "name"
property. -/
def w2Doc : SchemaDoc :=
  SchemaDoc.mk "https://scikit-hep.org/pyhf/schemas/1.0.0/measurement.json"
    (Schema.required ["name"])

/-- Fixture store for the C2 witness. -/
def w2Store : Store := [(("1.0.0", "measurement.json"), w2Doc)]

/-- Witness for C2 at a concrete registered schema and instance. -/
theorem validate_ok_iff_satisfies_witness :
    (load_schema w2Store [] "measurement.json" none = (Except.ok w2Doc, [(w2Doc.id, w2Doc)]))
    ∧ (((validate [] w2Store [] (PyObj.obj []) "measurement.json" none true).1 = Except.ok ()
        ↔ satSchema (activeTypeChecker [] true) w2Doc.schema (PyObj.obj []) = true)
      ∧ (∀ e, (validate [] w2Store [] (PyObj.obj []) "measurement.json" none true).1
            = Except.error e →
          ∃ errs, errs ≠ [] ∧ e = ValidateErr.invalidSpecification errs "measurement.json")) :=
  ⟨rfl, validate_ok_iff_satisfies [] w2Store [] [(w2Doc.id, w2Doc)] (PyObj.obj [])
    "measurement.json" none true w2Doc rfl⟩

/-- Claim C3: when the (version, schema name) pair is absent from the schema
store (and not already cached under the composed identifier), `load_schema`
fails with the `FileNotFoundError` identifying the missing schema, and a
`validate` call naming that schema surfaces the same not-found failure —
never any other outcome. -/
theorem missing_schema_notFound
    (array_types : List String) (store : Store) (cache : Cache) (spec : PyObj)
    (schema_id : String) (version : Option String) (allow_tensors : Bool)
    (hcache : alookup (schemaKey (resolveVersion version) schema_id) cache = none)
    (hstore : storeLookup store (resolveVersion version) schema_id = none) :
    (load_schema store cache schema_id version).1
        = Except.error (LoadErr.fileNotFound (resolveVersion version) schema_id)
    ∧ (validate array_types store cache spec schema_id version allow_tensors).1
        = Except.error (ValidateErr.fileNotFound (resolveVersion version) schema_id) := by
  have hL : load_schema store cache schema_id version
      = (Except.error (LoadErr.fileNotFound (resolveVersion version) schema_id), cache) := by
    rw [load_schema]
    simp [hcache, hstore]
  exact ⟨by rw [hL], by simp [validate, hL]⟩

/-- Witness for C3 at a concrete absent (version, name) pair. -/
theorem missing_schema_notFound_witness :
    (alookup (schemaKey (resolveVersion (some "0.0.0")) "defs.json") ([] : Cache) = none)
    ∧ (storeLookup ([] : Store) (resolveVersion (some "0.0.0")) "defs.json" = none)
    ∧ ((load_schema ([] : Store) ([] : Cache) "defs.json" (some "0.0.0")).1
        = Except.error (LoadErr.fileNotFound (resolveVersion (some "0.0.0")) "defs.json")
      ∧ (validate ([] : List String) ([] : Store) ([] : Cache) PyObj.null "defs.json" (some "0.0.0") true).1
        = Except.error (ValidateErr.fileNotFound (resolveVersion (some "0.0.0")) "defs.json")) :=
  ⟨rfl, rfl, missing_schema_notFound ([] : List String) ([] : Store) ([] : Cache) PyObj.null "defs.json" (some "0.0.0") true rfl rfl⟩

/-- Claim C4: two successive `load_schema` calls with the same arguments
(the second running on the cache state the first left behind) return
structurally identical results; in particular, for a pair present in the
store, both calls return the identical schema document. -/
theorem load_schema_idempotent (store : Store) (cache : Cache) (schema_id : String)
    (version : Option String) :
    (load_schema store (load_schema store cache schema_id version).2 schema_id version).1
      = (load_schema store cache schema_id version).1 :=
  load_schema_stable store cache schema_id version

/-- Store well-formedness (spec: a schema document's canonical identifier is
unique within the registry): two store documents with the same declared id
are the same document. -/
def StoreWF (store : Store) : Prop :=
  ∀ v1 n1 v2 n2 d1 d2, storeLookup store v1 n1 = some d1 →
    storeLookup store v2 n2 = some d2 → d1.id = d2.id → d1 = d2

/-- Cache coherence: every cached document sits under its own declared id
and came from the store (the only way the source ever populates
`SCHEMA_CACHE`). -/
def CacheOK (store : Store) (cache : Cache) : Prop :=
  ∀ k d, alookup k cache = some d →
    d.id = k ∧ ∃ v n, storeLookup store v n = some d

/-- Claim C5: once a document is cached under an identifier, no subsequent
`load_schema` or `validate` call replaces or mutates the entry stored under
that identifier — any re-insertion writes the identical document back. -/
theorem schema_cache_entry_stable
    (array_types : List String) (store : Store) (cache : Cache) (spec : PyObj)
    (schema_id : String) (version : Option String) (allow_tensors : Bool)
    (k : String) (d : SchemaDoc)
    (hwf : StoreWF store) (hok : CacheOK store cache)
    (hk : alookup k cache = some d) :
    alookup k (load_schema store cache schema_id version).2 = some d
    ∧ alookup k (validate array_types store cache spec schema_id version allow_tensors).2
        = some d := by
  have hL : alookup k (load_schema store cache schema_id version).2 = some d := by
    rw [load_schema]
    cases h1 : alookup (schemaKey (resolveVersion version) schema_id) cache with
    | some doc => simpa [h1] using hk
    | none =>
      cases h2 : storeLookup store (resolveVersion version) schema_id with
      | none => simpa [h1, h2] using hk
      | some doc =>
        simp only [h1, h2]
        by_cases hkid : k = doc.id
        · obtain ⟨hdid, v0, n0, hst0⟩ := hok k d hk
          have hdd : d = doc := hwf v0 n0 (resolveVersion version) schema_id d doc hst0 h2
            (by rw [hdid, hkid])
          simp [alookup, hkid, hdd]
        · simp [alookup, hkid, hk]
  exact ⟨hL, by rw [validate_cache_eq]; exact hL⟩

/-- Fixture document for the C5 witness; its declared id is the composed
identifier of its store slot. -/
def w5Doc : SchemaDoc :=
  SchemaDoc.mk "https://scikit-hep.org/pyhf/schemas/1.0.0/defs.json" Schema.anyS

/-- Fixture store for the C5 witness. -/
def w5Store : Store := [(("1.0.0", "defs.json"), w5Doc)]

/-- Fixture cache for the C5 witness: the defs document already cached under
its id (the state the module is in right after import). -/
def w5Cache : Cache := [(w5Doc.id, w5Doc)]

/-- Witness for C5 at a concrete well-formed store and populated cache. -/
theorem schema_cache_entry_stable_witness :
    StoreWF w5Store
    ∧ CacheOK w5Store w5Cache
    ∧ alookup w5Doc.id w5Cache = some w5Doc
    ∧ (alookup w5Doc.id (load_schema w5Store w5Cache "model.json" none).2 = some w5Doc
      ∧ alookup w5Doc.id
          (validate [] w5Store w5Cache PyObj.null "model.json" none true).2 = some w5Doc) := by
  have hwf : StoreWF w5Store := by
    intro v1 n1 v2 n2 d1 d2 h1 h2 _
    simp only [w5Store, storeLookup] at h1 h2
    split at h1
    · split at h2
      · cases h1; cases h2; rfl
      · cases h2
    · cases h1
  have hok : CacheOK w5Store w5Cache := by
    intro k d h
    simp only [w5Cache] at h
    rw [alookup] at h
    by_cases hk : k = w5Doc.id
    · rw [if_pos hk] at h
      cases h
      exact ⟨hk.symm, "1.0.0", "defs.json", rfl⟩
    · rw [if_neg hk] at h
      cases h
  exact ⟨hwf, hok, rfl,
    schema_cache_entry_stable [] w5Store w5Cache PyObj.null "model.json" none true
      w5Doc.id w5Doc hwf hok rfl⟩

/-- Claim C9: `validate` is deterministic — with a fixed set of registered
tensor array types and a fixed store, running it a second time on the same
inputs (over the cache state the first run left behind) yields the same
outcome. -/
theorem validate_deterministic
    (array_types : List String) (store : Store) (cache : Cache) (spec : PyObj)
    (schema_id : String) (version : Option String) (allow_tensors : Bool) :
    (validate array_types store
        (validate array_types store cache spec schema_id version allow_tensors).2
        spec schema_id version allow_tensors).1
      = (validate array_types store cache spec schema_id version allow_tensors).1 := by
  rw [validate_cache_eq]
  have hs := load_schema_stable store cache schema_id version
  rcases h1 : load_schema store cache schema_id version with ⟨r1, c1⟩
  rw [h1] at hs
  simp only at hs
  rcases h2 : load_schema store c1 schema_id version with ⟨r2, c2⟩
  rw [h2] at hs
  simp only at hs
  subst hs
  cases r2 with
  | error e =>
    cases e with
    | fileNotFound v n => simp [validate, h1, h2]
  | ok doc =>
    cases hE : evalSchema (activeTypeChecker array_types allow_tensors) doc.schema spec with
    | nil => simp [validate, h1, h2, hE]
    | cons x rest => simp [validate, h1, h2, hE]

theorem perm_sizeOf_eq {α : Type} [SizeOf α] {l1 l2 : List α} (h : List.Perm l1 l2) :
    sizeOf l1 = sizeOf l2 := by
  induction h with
  | nil => rfl
  | cons x _ ih => simp [ih]
  | swap x y l => simp; omega
  | trans _ _ ih1 ih2 => omega

/-- Ordering of object entries by key, as `sort_keys=True` orders a dict's
items. -/
@[reducible] def keyLE (p q : String × PyObj) : Prop := p.1 ≤ q.1

instance : DecidableRel keyLE := fun p q => inferInstanceAs (Decidable (p.1 ≤ q.1))

instance : IsTotal (String × PyObj) keyLE := ⟨fun p q => le_total p.1 q.1⟩

instance : IsTrans (String × PyObj) keyLE := ⟨fun _ _ _ h1 h2 => le_trans h1 h2⟩

/-- The key-sorted order in which `json.dumps(…, sort_keys=True)` emits a
dict's items. -/
def sortByKey (fs : List (String × PyObj)) : List (String × PyObj) :=
  List.insertionSort keyLE fs

mutual

/-- Modelled from the spec: `json.dumps(obj, sort_keys=True, ensure_ascii=False)`
— canonicalization via deterministic key-sorted serialization; returns
`none` exactly where the Python call raises `TypeError` (tensor values are
not JSON-serializable).  String escaping is elided: keys and text values are
emitted verbatim between quotes. -/
def dumps : PyObj → Option String
  | .null => some "null"
  | .bool b => some (if b then "true" else "false")
  | .num n => some (toString n)
  | .str s => some ("\"" ++ s ++ "\"")
  | .arr xs => (dumpsList xs).map (fun body => "[" ++ body ++ "]")
  | .obj fs => (dumpsFields (sortByKey fs)).map (fun body => "\x7b" ++ body ++ "\x7d")
  | .tensor _ _ => none
termination_by v => sizeOf v
decreasing_by
  all_goals simp_wf
  all_goals simp only [sortByKey]
  all_goals try (have hsz := perm_sizeOf_eq (List.perm_insertionSort keyLE fs))
  all_goals omega

/-- Serialization of the elements of a list, `", "`-separated. -/
def dumpsList : List PyObj → Option String
  | [] => some ""
  | [x] => dumps x
  | x :: y :: rest =>
    match dumps x, dumpsList (y :: rest) with
    | some sx, some srest => some (sx ++ ", " ++ srest)
    | _, _ => none
termination_by l => sizeOf l

/-- Serialization of already-ordered object entries, `", "`-separated
`"key": value` pairs. -/
def dumpsFields : List (String × PyObj) → Option String
  | [] => some ""
  | [(k, v)] => (dumps v).map (fun sv => "\"" ++ k ++ "\": " ++ sv)
  | (k, v) :: p :: rest =>
    match dumps v, dumpsFields (p :: rest) with
    | some sv, some srest => some ("\"" ++ k ++ "\": " ++ sv ++ ", " ++ srest)
    | _, _ => none
termination_by l => sizeOf l

end

theorem sorted_perm_keys_nodup_eq :
    ∀ (l1 l2 : List (String × PyObj)), List.Sorted keyLE l1 → List.Sorted keyLE l2 →
      List.Perm l1 l2 → (l1.map Prod.fst).Nodup → l1 = l2 := by
  intro l1
  induction l1 with
  | nil =>
    intro l2 _ _ hp _
    exact (List.Perm.eq_nil hp.symm).symm
  | cons a t1 ih =>
    intro l2 hs1 hs2 hp hnd
    cases l2 with
    | nil => exact absurd (List.Perm.eq_nil hp) (List.cons_ne_nil a t1)
    | cons b t2 =>
      have hb1 : b ∈ a :: t1 := hp.mem_iff.mpr (List.mem_cons_self b t2)
      have ha2 : a ∈ b :: t2 := hp.mem_iff.mp (List.mem_cons_self a t1)
      have hle1 : a.1 ≤ b.1 := by
        rcases List.mem_cons.mp hb1 with h | h
        · simp [h]
        · exact (List.sorted_cons.mp hs1).1 b h
      have hle2 : b.1 ≤ a.1 := by
        rcases List.mem_cons.mp ha2 with h | h
        · simp [h]
        · exact (List.sorted_cons.mp hs2).1 a h
      have hkey : a.1 = b.1 := le_antisymm hle1 hle2
      have hab : a = b := by
        rcases List.mem_cons.mp ha2 with h | h
        · exact h
        · exfalso
          have hnd2 : ((b :: t2).map Prod.fst).Nodup := ((hp.map Prod.fst).nodup_iff).mp hnd
          rw [List.map_cons, List.nodup_cons] at hnd2
          exact hnd2.1 (hkey ▸ List.mem_map_of_mem Prod.fst h)
      subst hab
      have hpt : List.Perm t1 t2 := hp.cons_inv
      have htl := ih t2 (List.sorted_cons.mp hs1).2 (List.sorted_cons.mp hs2).2 hpt
        (by
          rw [List.map_cons, List.nodup_cons] at hnd
          exact hnd.2)
      rw [htl]

theorem sortByKey_eq_of_perm (fs1 fs2 : List (String × PyObj))
    (hp : List.Perm fs1 fs2) (hnd : (fs1.map Prod.fst).Nodup) :
    sortByKey fs1 = sortByKey fs2 := by
  apply sorted_perm_keys_nodup_eq
  · exact List.sorted_insertionSort keyLE fs1
  · exact List.sorted_insertionSort keyLE fs2
  · exact (List.perm_insertionSort keyLE fs1).trans
      (hp.trans (List.perm_insertionSort keyLE fs2).symm)
  · exact ((List.perm_insertionSort keyLE fs1).map Prod.fst).nodup_iff.mpr hnd

theorem dumps_obj (fs : List (String × PyObj)) :
    dumps (PyObj.obj fs)
      = (dumpsFields (sortByKey fs)).map (fun body => "\x7b" ++ body ++ "\x7d") := by
  simp [dumps]

/-- Python `ValueError`, carrying its message. -/
structure ValueError where
  msg : String
deriving DecidableEq

/-- Modelled from the spec: `getattr(hashlib, algorithm)` — the named hash
constructors Python's `hashlib` library provides; each maps the canonical
serialized text to its digest hex string (digesting is an external
collaborator that the spec fixes only by interface, so the hash itself is
abstracted as an algorithm-tagged function of the canonical text). -/
def hashlibLookup (algorithm : String) : Option (String → String) :=
  if algorithm ∈ ["md5", "sha1", "sha224", "sha256", "sha384", "sha512"] then
    some (fun payload => algorithm ++ ":" ++ payload)
  else none

/-- Translation of `pyhf.utils.digest`: serialize with sorted keys (the
`TypeError` of an unserializable object becomes a `ValueError`), look the
algorithm up in `hashlib` (an `AttributeError` becomes a `ValueError` about
the unsupported algorithm), and return the digest of the canonical text. -/
def digest (obj : PyObj) (algorithm : String) : Except ValueError String :=
  match dumps obj with
  | none => Except.error (ValueError.mk
      "The supplied object is not JSON-serializable for calculating a hash.")
  | some stringified =>
    match hashlibLookup algorithm with
    | none => Except.error (ValueError.mk
        (algorithm ++ " is not an algorithm provided by Python's hashlib library."))
    | some hash_alg => Except.ok (hash_alg stringified)

/-- Claim C6: `digest` is invariant under the key insertion order of a
mapping — two objects holding the same key-value pairs in different orders
(with no duplicate keys) digest to the same hex string, because
canonicalization serializes with sorted keys before hashing. -/
theorem digest_sorted_key_invariance (fs1 fs2 : List (String × PyObj)) (algorithm : String)
    (hp : List.Perm fs1 fs2) (hnd : (fs1.map Prod.fst).Nodup) :
    digest (PyObj.obj fs1) algorithm = digest (PyObj.obj fs2) algorithm := by
  have h : dumps (PyObj.obj fs1) = dumps (PyObj.obj fs2) := by
    rw [dumps_obj, dumps_obj, sortByKey_eq_of_perm fs1 fs2 hp hnd]
  simp only [digest, h]

/-- Witness for C6: the example mapping with keys "a", "b", "c" in two
insertion orders digests identically under `sha256`. -/
theorem digest_sorted_key_invariance_witness :
    (List.Perm [("b", PyObj.num 3), ("a", PyObj.num 2), ("c", PyObj.num 1)]
      [("a", PyObj.num 2), ("b", PyObj.num 3), ("c", PyObj.num 1)])
    ∧ (([("b", PyObj.num 3), ("a", PyObj.num 2), ("c", PyObj.num 1)].map Prod.fst).Nodup)
    ∧ digest (PyObj.obj [("b", PyObj.num 3), ("a", PyObj.num 2), ("c", PyObj.num 1)]) "sha256"
        = digest (PyObj.obj [("a", PyObj.num 2), ("b", PyObj.num 3), ("c", PyObj.num 1)]) "sha256" :=
  ⟨List.Perm.swap ("a", PyObj.num 2) ("b", PyObj.num 3) [("c", PyObj.num 1)],
    by decide,
    digest_sorted_key_invariance
      [("b", PyObj.num 3), ("a", PyObj.num 2), ("c", PyObj.num 1)]
      [("a", PyObj.num 2), ("b", PyObj.num 3), ("c", PyObj.num 1)] "sha256"
      (List.Perm.swap ("a", PyObj.num 2) ("b", PyObj.num 3) [("c", PyObj.num 1)])
      (by decide)⟩

/-- Claim C7: `digest` succeeds exactly when the object serializes
canonically and the algorithm is one `hashlib` provides, and in every other
case it surfaces a `ValueError` (never any other failure). -/
theorem digest_valueError_cases (obj : PyObj) (algorithm : String) :
    ((∃ hex, digest obj algorithm = Except.ok hex)
      ↔ ((dumps obj).isSome ∧ (hashlibLookup algorithm).isSome))
    ∧ ((dumps obj = none ∨ hashlibLookup algorithm = none) →
        ∃ m, digest obj algorithm = Except.error (ValueError.mk m)) := by
  cases hD : dumps obj with
  | none =>
    constructor
    · constructor
      · rintro ⟨hex, hh⟩
        simp [digest, hD] at hh
      · rintro ⟨h1, _⟩
        simp [hD] at h1
    · intro _
      exact ⟨"The supplied object is not JSON-serializable for calculating a hash.",
        by simp [digest, hD]⟩
  | some s =>
    cases hH : hashlibLookup algorithm with
    | none =>
      constructor
      · constructor
        · rintro ⟨hex, hh⟩
          simp [digest, hD, hH] at hh
        · rintro ⟨_, h2⟩
          simp [hH] at h2
      · intro _
        exact ⟨algorithm ++ " is not an algorithm provided by Python's hashlib library.",
          by simp [digest, hD, hH]⟩
    | some f =>
      constructor
      · constructor
        · intro _
          simp [hD, hH]
        · intro _
          exact ⟨f s, by simp [digest, hD, hH]⟩
      · intro h
        rcases h with h | h
        · exact Option.noConfusion h
        · exact Option.noConfusion h

/-- Witness for C7: a tensor value is not JSON-serializable, so `digest`
surfaces the `ValueError` even for a supported algorithm. -/
theorem digest_valueError_cases_witness :
    (dumps (PyObj.tensor "numpy" []) = none ∨ hashlibLookup "sha256" = none)
    ∧ (∃ m, digest (PyObj.tensor "numpy" []) "sha256" = Except.error (ValueError.mk m)) :=
  ⟨Or.inl (by simp [dumps]),
    (digest_valueError_cases (PyObj.tensor "numpy" []) "sha256").2 (Or.inl (by simp [dumps]))⟩

/-- Scan for the first `'='`, as `str.split('=', 1)` does: returns the text
before and after the first delimiter, or nothing when no delimiter occurs. -/
def splitOnceAux : List Char → List Char → Option (List Char × List Char)
  | [], _ => none
  | c :: rest, acc =>
    if c = '=' then some (acc.reverse, rest) else splitOnceAux rest (c :: acc)

/-- Translation of Python `opt.split('=', 1)`: a one-element list when the
string holds no `'='`, otherwise the two pieces around the first `'='`. -/
def split_eq_1 (s : String) : List String :=
  match splitOnceAux s.data [] with
  | none => [s]
  | some (k, v) => [String.mk k, String.mk v]

theorem splitOnceAux_eq_none_iff :
    ∀ (l acc : List Char), (splitOnceAux l acc = none ↔ '=' ∉ l) := by
  intro l
  induction l with
  | nil => intro acc; simp [splitOnceAux]
  | cons c rest ih =>
    intro acc
    by_cases hc : c = '='
    · simp [splitOnceAux, hc]
    · simp [splitOnceAux, hc, ih, Ne.symm hc]

/-- The line `f"{opt.split('=', 1)[0]}: {opt.split('=', 1)[1]}"` built per
option, or the `IndexError` (as `none`) when index 1 does not exist. -/
def optLine (opt : String) : Option String :=
  match split_eq_1 opt with
  | [k, v] => some (k ++ ": " ++ v)
  | _ => none

theorem optLine_eq_none_iff (opt : String) : optLine opt = none ↔ '=' ∉ opt.data := by
  simp only [optLine, split_eq_1]
  cases h : splitOnceAux opt.data [] with
  | none =>
    simp [(splitOnceAux_eq_none_iff opt.data []).mp h]
  | some kv =>
    obtain ⟨k, v⟩ := kv
    have hmem : '=' ∈ opt.data := by
      by_contra hni
      rw [(splitOnceAux_eq_none_iff opt.data []).mpr hni] at h
      cases h
    simp [hmem]

theorem optLine_some_ne_empty (opt : String) (hmem : '=' ∈ opt.data) :
    ∃ line, optLine opt = some line ∧ line ≠ "" := by
  cases h : splitOnceAux opt.data [] with
  | none =>
    exact absurd ((splitOnceAux_eq_none_iff opt.data []).mp h) (by simpa using hmem)
  | some kv =>
    obtain ⟨k, v⟩ := kv
    refine ⟨String.mk k ++ ": " ++ String.mk v, ?_, ?_⟩
    · simp [optLine, split_eq_1, h]
    · intro hE
      have hlen := congrArg String.length hE
      rw [String.length_append, String.length_append] at hlen
      have h2 : (": ").length = 2 := rfl
      have h0 : ("" : String).length = 0 := rfl
      omega

/-- The `IndexError` that `opt.split('=', 1)[1]` raises when the option has
no delimiter. -/
inductive IndexErr where
  | indexError : IndexErr
deriving DecidableEq

/-- The option lines consumed by `'\n'.join(...)`: Python builds them
lazily, so the first entry lacking a delimiter aborts the whole call. -/
def buildLines : List String → Option (List String)
  | [] => some []
  | opt :: rest =>
    match optLine opt, buildLines rest with
    | some line, some lines => some (line :: lines)
    | _, _ => none

/-- The documents `yaml.safe_load` returns here: the null value of the empty
document, or a key-value mapping. -/
inductive YamlDoc where
  | null : YamlDoc
  | mapping : List (String × String) → YamlDoc
deriving DecidableEq

/-- One `key: value` line of the YAML document. -/
def parseLine (line : String) : String × String :=
  match line.splitOn ": " with
  | [] => (line, "")
  | [k] => (k, "")
  | k :: rest => (k, String.intercalate ": " rest)

/-- Modelled from the spec: `yaml.safe_load` restricted to the documents
this module feeds it — the empty document parses to `None`, and a
newline-joined sequence of `key: value` lines parses to the corresponding
key-value mapping. -/
def safe_load (document : String) : YamlDoc :=
  if document = "" then YamlDoc.null
  else YamlDoc.mapping ((document.splitOn "\n").map parseLine)

/-- Translation of `'\n'.join(...)`. -/
def joinNL : List String → String
  | [] => ""
  | [line] => line
  | line :: next :: rest => line ++ "\n" ++ joinNL (next :: rest)

/-- Translation of `pyhf.utils.options_from_eqdelimstring`: build one
`key: value` line per `key=value` option (an entry without `'='` raises
`IndexError`), join the lines and parse them as YAML. -/
def options_from_eqdelimstring (opts : List String) : Except IndexErr YamlDoc :=
  match buildLines opts with
  | none => Except.error IndexErr.indexError
  | some lines => Except.ok (safe_load (joinNL lines))

theorem joinNL_ne_empty (line : String) (rest : List String) (h : line ≠ "") :
    joinNL (line :: rest) ≠ "" := by
  cases rest with
  | nil => simpa [joinNL] using h
  | cons y ys =>
    intro hE
    rw [joinNL] at hE
    have hlen := congrArg String.length hE
    rw [String.length_append, String.length_append] at hlen
    have h1 : ("\n").length = 1 := rfl
    have h0 : ("" : String).length = 0 := rfl
    omega

theorem buildLines_eq_none_of_mem (opts : List String) (o : String) (ho : o ∈ opts)
    (hno : optLine o = none) : buildLines opts = none := by
  induction opts with
  | nil => cases ho
  | cons x rest ih =>
    rcases List.mem_cons.mp ho with h | h
    · subst h
      cases hB : buildLines rest <;> simp [buildLines, hno, hB]
    · have hB := ih h
      cases hO : optLine x <;> simp [buildLines, hO, hB]

theorem buildLines_some_of_all (opts : List String) (hall : ∀ o ∈ opts, '=' ∈ o.data) :
    ∃ lines, buildLines opts = some lines ∧ lines.length = opts.length
      ∧ (∀ l ∈ lines, l ≠ "") := by
  induction opts with
  | nil => exact ⟨[], rfl, rfl, by simp⟩
  | cons x rest ih =>
    obtain ⟨line, hline, hne⟩ := optLine_some_ne_empty x (hall x (List.mem_cons_self x rest))
    obtain ⟨lines, hlines, hlen, hni⟩ := ih (fun o ho => hall o (List.mem_cons_of_mem x ho))
    refine ⟨line :: lines, ?_, by simp [hlen], ?_⟩
    · simp [buildLines, hline, hlines]
    · intro l hl
      rcases List.mem_cons.mp hl with h | h
      · rw [h]; exact hne
      · exact hni l h

/-- Counterexample to C8 as stated: the empty option list vacuously has
every entry delimited, yet the call returns the parse of the empty document
— the null value — and not a key-value mapping. -/
theorem options_from_eqdelimstring_counterexample :
    (∀ o ∈ ([] : List String), '=' ∈ o.data)
    ∧ options_from_eqdelimstring [] = Except.ok YamlDoc.null
    ∧ (∀ entries, options_from_eqdelimstring [] ≠ Except.ok (YamlDoc.mapping entries)) := by
  refine ⟨by simp, rfl, ?_⟩
  intro entries h
  simp [options_from_eqdelimstring, buildLines, joinNL, safe_load] at h

/-- Claim C8 (amended): a list containing an entry without the `'='`
delimiter makes `options_from_eqdelimstring` fail with the `IndexError`
rather than return a mapping, and a NONEMPTY list whose entries all contain
the delimiter produces a key-value mapping (the empty list instead yields
the null parse of the empty document). -/
theorem options_from_eqdelimstring_delim_spec (opts : List String) :
    ((∃ o ∈ opts, '=' ∉ o.data) →
      options_from_eqdelimstring opts = Except.error IndexErr.indexError)
    ∧ (opts ≠ [] → (∀ o ∈ opts, '=' ∈ o.data) →
      ∃ entries, options_from_eqdelimstring opts = Except.ok (YamlDoc.mapping entries)) := by
  constructor
  · rintro ⟨o, ho, hno⟩
    have hnone : buildLines opts = none :=
      buildLines_eq_none_of_mem opts o ho ((optLine_eq_none_iff o).mpr hno)
    simp [options_from_eqdelimstring, hnone]
  · intro hne hall
    obtain ⟨lines, hlines, hlen, hni⟩ := buildLines_some_of_all opts hall
    cases lines with
    | nil =>
      exfalso
      apply hne
      cases opts with
      | nil => rfl
      | cons a as => simp at hlen
    | cons l ls =>
      have hl0 : l ≠ "" := hni l (List.mem_cons_self l ls)
      have hjoin : joinNL (l :: ls) ≠ "" := joinNL_ne_empty l ls hl0
      refine ⟨((joinNL (l :: ls)).splitOn "\n").map parseLine, ?_⟩
      simp only [options_from_eqdelimstring, hlines]
      rw [safe_load, if_neg hjoin]

/-- Witness for the amended C8 at concrete option lists exercising both the
missing-delimiter failure and the successful mapping. -/
theorem options_from_eqdelimstring_delim_spec_witness :
    (∃ o ∈ ["noeq"], '=' ∉ o.data)
    ∧ options_from_eqdelimstring ["noeq"] = Except.error IndexErr.indexError
    ∧ (["opt=value"] ≠ ([] : List String))
    ∧ (∀ o ∈ ["opt=value"], '=' ∈ o.data)
    ∧ (∃ entries, options_from_eqdelimstring ["opt=value"]
        = Except.ok (YamlDoc.mapping entries)) :=
  ⟨⟨"noeq", by simp, by decide⟩,
    (options_from_eqdelimstring_delim_spec ["noeq"]).1 ⟨"noeq", by simp, by decide⟩,
    by simp,
    by decide,
    (options_from_eqdelimstring_delim_spec ["opt=value"]).2 (by simp) (by decide)⟩

/-- Claim C10: applied to the empty list, `options_from_eqdelimstring`
returns the null value produced by parsing the empty document, not an empty
key-value mapping. -/
theorem options_from_eqdelimstring_empty_null :
    options_from_eqdelimstring [] = Except.ok YamlDoc.null
    ∧ options_from_eqdelimstring [] ≠ Except.ok (YamlDoc.mapping []) := by
  constructor
  · rfl
  · intro h
    simp [options_from_eqdelimstring, buildLines, joinNL, safe_load] at h
